import Mathlib

/-!
Verification development for the wails-plugin-sqlite repository
(`src/plugin.go`, package `sqlite`).

The plugin is a lifecycle adapter: `Init` resolves an OS-specific
directory, creates it, opens a SQLite connection, applies pool bounds and
pings it; `Shutdown` optionally deletes the database file (or its
directory).  We embed the code shallowly: the external world
(`runtime.GOOS`, `os.Getenv`, and the success or failure of `os.MkdirAll`,
`sql.Open`, `db.Ping`, `os.RemoveAll`) is an explicit environment of
oracles, and every filesystem / connection call the code makes is recorded
in an effect trace, in program order.

Paths are modelled with a faithful transcription of Go's `path/filepath`
for slash-separated paths: `Join` drops leading empty elements, joins the
rest with `/` and runs `Clean`; `Clean` is implemented componentwise
(split on `/`, drop empty and `.` components, resolve `..`), which is the
standard componentwise reading of Go's byte-level algorithm; `Dir` keeps
everything up to and including the final separator and cleans it.
-/

namespace WailsSqlite

/-- Split a character list on `/`. `splitComps [] = [[]]`, mirroring the
fact that splitting an empty string yields one empty component. -/
def splitComps : List Char → List (List Char)
  | [] => [[]]
  | c :: cs =>
    if c = '/' then [] :: splitComps cs
    else (splitComps cs).modifyHead (fun g => c :: g)

/-- Join components with `/` (inverse of `splitComps`). -/
def intercalateSlash : List (List Char) → List Char
  | [] => []
  | [c] => c
  | c :: cs => c ++ '/' :: intercalateSlash cs

/-- A path component that `Clean` copies through unchanged: not empty,
not `.`, not `..`. -/
def simpleComp (c : List Char) : Bool :=
  decide (¬ (c = [] ∨ c = ['.'] ∨ c = ['.', '.']))

/-- The component loop of Go `filepath.Clean` (unix): skip empty and `.`
components; on `..` pop the previous component when possible, drop it on a
rooted path, and keep it on a relative path. -/
def cleanLoop (rooted : Bool) : List (List Char) → List (List Char) → List (List Char)
  | out, [] => out
  | out, c :: cs =>
    if c = [] ∨ c = ['.'] then cleanLoop rooted out cs
    else if c = ['.', '.'] then
      if out ≠ [] ∧ out.getLast? ≠ some ['.', '.'] then
        cleanLoop rooted out.dropLast cs
      else if rooted then cleanLoop rooted out cs
      else cleanLoop rooted (out ++ [c]) cs
    else cleanLoop rooted (out ++ [c]) cs

/-- Go `filepath.Clean` for slash-separated paths, componentwise. -/
def filepathClean (p : String) : String :=
  if p.data = [] then "."
  else if p.data.head? = some '/' then
    let comps := cleanLoop true [] (splitComps p.data.tail)
    if comps = [] then "/" else String.mk ('/' :: intercalateSlash comps)
  else
    let comps := cleanLoop false [] (splitComps p.data)
    if comps = [] then "." else String.mk (intercalateSlash comps)

/-- Go `filepath.Join`: drop leading empty elements; if none remain the
result is `""`, otherwise join the remaining elements (empty ones
included) with `/` and `Clean` the result. -/
def filepathJoin (elems : List String) : String :=
  match elems.dropWhile (fun e => e = "") with
  | [] => ""
  | rest => filepathClean (String.mk (intercalateSlash (rest.map String.data)))

/-- Go `filepath.Dir` (unix): everything up to and including the final
separator, cleaned; `Clean ""` yields `"."` when there is no separator. -/
def filepathDir (p : String) : String :=
  filepathClean (String.mk ((p.data.reverse.dropWhile (fun ch => ¬ ch = '/')).reverse))

/-- Model of a `*sql.DB` handle: the data source name it was opened on and
the pool bounds currently set on it (`database/sql` opens a handle with
default idle limit 2 and unlimited (0) open limit). -/
structure DB where
  dsn : String
  maxIdle : Int
  maxOpen : Int
deriving DecidableEq

/-- The error cases of `plugin.go`, one per distinct `return`-with-error
site; `message` below carries the exact source strings. -/
inductive GoErr
  | configErr
  | unsupportedOS
  | dirErr
  | connErr
  | memConnErr
  | pingErr
  | deleteErr
  | nilHandleErr
deriving DecidableEq

/-- The literal error text of each error site in `plugin.go` (wrapped
`%w` causes elided). -/
def GoErr.message : GoErr → String
  | .configErr => "Sqlite requires a DbName to be set or configured for In Memory database"
  | .unsupportedOS => "operating system not supported, please use Windows/macOS/Linux"
  | .dirErr => "failed to create directory"
  | .connErr => "failed to create database"
  | .memConnErr => "failed to create in-memory database"
  | .pingErr => "failed to ping database"
  | .deleteErr => "failed to delete database"
  | .nilHandleErr => "Attempted to set DB but provided pointer was nil"

/-- One observable filesystem / connection / logging call made by the
plugin, in program order. -/
inductive Effect
  | mkdirAll (path : String)
  | sqlOpen (driver dsn : String)
  | setMaxIdle (n : Int)
  | setMaxOpen (n : Int)
  | ping (dsn : String)
  | removeAll (path : String)
  | logInfo (path : String) (idle opn : Int)
deriving DecidableEq

/-- The `Config` struct of `plugin.go`, including the two fields the code
mutates (`DB`, `savedPath`). A fresh configuration has `DB = none` and
`savedPath = ""` (Go zero values). -/
structure Config where
  DbName : String
  InMemory : Bool
  MacDir : String
  WindowsDir : String
  LinuxDir : String
  DeleteOnShutdown : Bool
  DeleteDir : Bool
  CacheShared : Bool
  MaxOpenConnections : Int
  MaxIdleConnections : Int
  DB : Option DB
  savedPath : String
deriving DecidableEq

/-- The environment the plugin runs in: `runtime.GOOS`, `os.Getenv`, and
oracles deciding whether each external call succeeds (keyed by the path /
data source name it is given). -/
structure Env where
  goos : String
  getenv : String → String
  mkdirOk : String → Bool
  openOk : String → Bool
  pingOk : String → Bool
  removeOk : String → Bool

/-- Result of one lifecycle call: the returned `error` (`none` = nil), the
configuration after the call, and the trace of external calls made. -/
structure StepResult where
  err : Option GoErr
  cfg : Config
  trace : List Effect
deriving DecidableEq

/-- `createMemDB`: `sql.Open("sqlite3", ":memory:")`; on success store the
handle, otherwise return the wrapped error and leave the config alone. -/
def createMemDB (env : Env) (c : Config) : StepResult :=
  if env.openOk ":memory:" then
    ⟨none, { c with DB := some ⟨":memory:", 2, 0⟩ }, [.sqlOpen "sqlite3" ":memory:"]⟩
  else
    ⟨some .memConnErr, c, [.sqlOpen "sqlite3" ":memory:"]⟩

/-- The `switch runtime.GOOS` of `createFileDB`: the directory `dbPath`
resolves to, or `none` on an unsupported platform. Note the windows
fallback joins `%APPDATA%` with the (empty) `WindowsDir`, and the darwin
fallback appends `DbName.db` to the directory itself, exactly as the
source does. -/
def resolveDir (env : Env) (c : Config) : Option String :=
  if env.goos = "windows" then
    some (if c.WindowsDir ≠ "" then c.WindowsDir
          else filepathJoin [env.getenv "APPDATA", c.WindowsDir])
  else if env.goos = "darwin" then
    some (if c.MacDir ≠ "" then c.MacDir
          else filepathJoin [env.getenv "HOME", "Library", "Application Support",
                             c.DbName, c.DbName ++ ".db"])
  else if env.goos = "linux" then
    some (if c.LinuxDir ≠ "" then c.LinuxDir
          else filepathJoin [env.getenv "HOME", ".config", c.DbName])
  else none

/-- `fileName := DbName + ".db"`, with `"?cache=shared"` appended when
`CacheShared` is set. -/
def fileNameOf (c : Config) : String :=
  let f := c.DbName ++ ".db"
  if c.CacheShared then f ++ "?cache=shared" else f

/-- `createFileDB`: resolve the directory, compose the file name,
`MkdirAll` the directory, join directory and file name, record
`savedPath := fileName` (the source stores the bare file name, not the
joined path), `sql.Open`, apply pool bounds (zero means default: idle 2,
open 1), `Ping`, then log and store the handle. -/
def createFileDB (env : Env) (c : Config) : StepResult :=
  match resolveDir env c with
  | none => ⟨some .unsupportedOS, c, []⟩
  | some dir =>
    let fileName := fileNameOf c
    if ¬ env.mkdirOk dir then
      ⟨some .dirErr, c, [.mkdirAll dir]⟩
    else
      let dbPath := filepathJoin [dir, fileName]
      let c1 := { c with savedPath := fileName }
      if ¬ env.openOk dbPath then
        ⟨some .connErr, c1, [.mkdirAll dir, .sqlOpen "sqlite3" dbPath]⟩
      else
        let idle := if c.MaxIdleConnections = 0 then 2 else c.MaxIdleConnections
        let opn := if c.MaxOpenConnections = 0 then 1 else c.MaxOpenConnections
        if ¬ env.pingOk dbPath then
          ⟨some .pingErr, c1,
           [.mkdirAll dir, .sqlOpen "sqlite3" dbPath,
            .setMaxIdle idle, .setMaxOpen opn, .ping dbPath]⟩
        else
          ⟨none, { c1 with DB := some ⟨dbPath, idle, opn⟩ },
           [.mkdirAll dir, .sqlOpen "sqlite3" dbPath,
            .setMaxIdle idle, .setMaxOpen opn, .ping dbPath,
            .logInfo dbPath idle opn]⟩

/-- `Sqlite.Init`: in-memory short-circuits before the name check; a
missing name fails before any external call; otherwise `createFileDB`. -/
def Init (env : Env) (c : Config) : StepResult :=
  if c.InMemory then createMemDB env c
  else if c.DbName = "" then ⟨some .configErr, c, []⟩
  else createFileDB env c

/-- `Sqlite.Shutdown`: when `DeleteOnShutdown` is set and the database is
not in-memory, `os.RemoveAll` either `savedPath` or its `filepath.Dir`,
depending on `DeleteDir`. -/
def Shutdown (env : Env) (c : Config) : StepResult :=
  if c.DeleteOnShutdown then
    if c.InMemory then ⟨none, c, []⟩
    else
      let target := if c.DeleteDir then filepathDir c.savedPath else c.savedPath
      if env.removeOk target then ⟨none, c, [.removeAll target]⟩
      else ⟨some .deleteErr, c, [.removeAll target]⟩
  else ⟨none, c, []⟩

/-- `Sqlite.GetDB`: returns the stored handle and a nil error. -/
def GetDB (c : Config) : Option DB × Option GoErr :=
  (c.DB, none)

/-- `Sqlite.SetDB`: store a non-nil handle, reject nil. -/
def SetDB (c : Config) (newDB : Option DB) : Option GoErr × Config :=
  match newDB with
  | some db => (none, { c with DB := some db })
  | none => (some .nilHandleErr, c)

/-! Helper predicates and lemmas about the path model.  A path is
"simple" when every `/`-separated component is nonempty and distinct from
`.` and `..`; on such paths `Clean` is the identity, which lets the claims
below state resolved paths literally. -/

/-- Every component of `l` (split on `/`) is simple. -/
def simpleCompsOk (l : List Char) : Bool :=
  (splitComps l).all simpleComp

/-- A simple path string: simple components after the optional leading
`/`.  Empty strings and the bare root are not simple. -/
def simplePathStr (s : String) : Bool :=
  if s.data.head? = some '/' then simpleCompsOk s.data.tail
  else simpleCompsOk s.data

/-- A simple, separator-free path segment, fit to be one component. -/
def simpleSeg (s : String) : Bool :=
  simpleComp s.data && s.data.all (fun ch => ch != '/')

/-! Concrete fixtures used by the closed theorems and witnesses. -/

/-- A linux environment with `HOME=/home/u` in which every external call
succeeds. -/
def envLinux : Env :=
  { goos := "linux"
    getenv := fun k => if k = "HOME" then "/home/u" else ""
    mkdirOk := fun _ => true
    openOk := fun _ => true
    pingOk := fun _ => true
    removeOk := fun _ => true }

/-- The same environment but with `sql.Open` failing. -/
def envLinuxOpenFail : Env :=
  { envLinux with openOk := fun _ => false }

/-- A windows environment with a typical roaming app-data value. -/
def envWin : Env :=
  { envLinux with
    goos := "windows"
    getenv := fun k => if k = "APPDATA" then "C:\\Users\\u\\AppData\\Roaming" else "" }

/-- A fresh configuration: `DbName="app"`, file-backed, no overrides,
`DeleteOnShutdown=true`, `DeleteDir=false`, pool bounds unset. -/
def cfgApp : Config :=
  { DbName := "app", InMemory := false, MacDir := "", WindowsDir := "", LinuxDir := ""
    DeleteOnShutdown := true, DeleteDir := false, CacheShared := false
    MaxOpenConnections := 0, MaxIdleConnections := 0, DB := none, savedPath := "" }

/-- Same as `cfgApp` but with `DeleteDir=true`. -/
def cfgAppDelDir : Config :=
  { cfgApp with DeleteDir := true }

/-- Same as `cfgApp` but with an empty name. -/
def cfgNoName : Config :=
  { cfgApp with DbName := "" }

/-- Same as `cfgApp` but in-memory. -/
def cfgMem : Config :=
  { cfgApp with InMemory := true }

/-- Same as `cfgApp` but with the shared cache enabled. -/
def cfgShared : Config :=
  { cfgApp with CacheShared := true }

theorem splitComps_ne_nil (l : List Char) : splitComps l ≠ [] := by
  cases l with
  | nil => simp [splitComps]
  | cons c cs =>
    simp only [splitComps]
    split
    · simp
    · have := splitComps_ne_nil cs
      rcases h : splitComps cs with _ | ⟨g, gs⟩
      · exact absurd h this
      · simp [h]

theorem intercalateSlash_cons_cons (g : List Char) (g2 : List Char)
    (gs : List (List Char)) :
    intercalateSlash (g :: g2 :: gs) = g ++ '/' :: intercalateSlash (g2 :: gs) := by
  rfl

theorem intercalateSlash_modifyHead (c : Char) (g : List Char)
    (gs : List (List Char)) :
    intercalateSlash ((c :: g) :: gs) = c :: intercalateSlash (g :: gs) := by
  cases gs with
  | nil => rfl
  | cons x xs => simp [intercalateSlash_cons_cons]

theorem intercalateSlash_splitComps (l : List Char) :
    intercalateSlash (splitComps l) = l := by
  induction l with
  | nil => rfl
  | cons c cs ih =>
    simp only [splitComps]
    split
    · rename_i hc
      subst hc
      rcases h : splitComps cs with _ | ⟨g, gs⟩
      · exact absurd h (splitComps_ne_nil cs)
      · rw [h] at ih
        simp [intercalateSlash_cons_cons, ih]
    · rcases h : splitComps cs with _ | ⟨g, gs⟩
      · exact absurd h (splitComps_ne_nil cs)
      · rw [h] at ih
        simp only [h, List.modifyHead, intercalateSlash_modifyHead, ih]

theorem splitComps_append_slash (xs ys : List Char) :
    splitComps (xs ++ '/' :: ys) = splitComps xs ++ splitComps ys := by
  induction xs with
  | nil => simp [splitComps]
  | cons c cs ih =>
    simp only [List.cons_append, splitComps]
    split
    · simp [ih]
    · rcases h : splitComps cs with _ | ⟨g, gs⟩
      · exact absurd h (splitComps_ne_nil cs)
      · rw [h] at ih
        simp [ih, h, List.modifyHead]

theorem splitComps_of_noslash (l : List Char) (h : l.all (fun ch => ch != '/') = true) :
    splitComps l = [l] := by
  induction l with
  | nil => rfl
  | cons c cs ih =>
    simp only [List.all_cons, Bool.and_eq_true, bne_iff_ne, ne_eq] at h
    simp only [splitComps, if_neg h.1, ih h.2, List.modifyHead]

theorem cleanLoop_simple (r : Bool) (l : List (List Char))
    (h : ∀ c ∈ l, simpleComp c = true) :
    ∀ out, cleanLoop r out l = out ++ l := by
  induction l with
  | nil => intro out; simp [cleanLoop]
  | cons c cs ih =>
    intro out
    have hc := h c (by simp)
    simp only [simpleComp, decide_eq_true_eq] at hc
    push_neg at hc
    obtain ⟨h1, h2, h3⟩ := hc
    simp only [cleanLoop, if_neg (by tauto : ¬ (c = [] ∨ c = ['.'])), if_neg h3]
    rw [ih (fun d hd => h d (by simp [hd])) (out ++ [c])]
    simp

theorem cleanLoop_simple_trailing (r : Bool) (l : List (List Char))
    (h : ∀ c ∈ l, simpleComp c = true) :
    ∀ out, cleanLoop r out (l ++ [[]]) = out ++ l := by
  induction l with
  | nil => intro out; simp [cleanLoop]
  | cons c cs ih =>
    intro out
    have hc := h c (by simp)
    simp only [simpleComp, decide_eq_true_eq] at hc
    push_neg at hc
    obtain ⟨h1, h2, h3⟩ := hc
    simp only [List.cons_append, cleanLoop,
      if_neg (by tauto : ¬ (c = [] ∨ c = ['.'])), if_neg h3]
    rw [show cs.append [[]] = cs ++ [[]] from rfl,
        ih (fun d hd => h d (by simp [hd])) (out ++ [c])]
    simp

theorem data_mk (l : List Char) : (String.mk l).data = l := rfl

theorem data_injective {s t : String} (h : s.data = t.data) : s = t := by
  cases s; cases t
  exact congrArg String.mk h

theorem mk_data_eq (s : String) : String.mk s.data = s := rfl

theorem simplePathStr_data_ne_nil {s : String} (h : simplePathStr s = true) :
    s.data ≠ [] := by
  intro hnil
  simp [simplePathStr, hnil, simpleCompsOk, splitComps, simpleComp] at h

theorem simplePathStr_ne_empty {s : String} (h : simplePathStr s = true) :
    s ≠ "" := by
  intro he
  exact simplePathStr_data_ne_nil h (by simp [he])

theorem clean_mk_rooted (t : List Char)
    (h : ∀ d ∈ splitComps t, simpleComp d = true) :
    filepathClean (String.mk ('/' :: t)) = String.mk ('/' :: t) := by
  have hclean : cleanLoop true [] (splitComps t) = splitComps t := by
    rw [cleanLoop_simple true (splitComps t) h []]
    exact List.nil_append _
  unfold filepathClean
  simp [data_mk, hclean, splitComps_ne_nil t, intercalateSlash_splitComps]

theorem clean_mk_nonrooted (c : Char) (t : List Char) (hc : ¬ c = '/')
    (h : ∀ d ∈ splitComps (c :: t), simpleComp d = true) :
    filepathClean (String.mk (c :: t)) = String.mk (c :: t) := by
  have hclean : cleanLoop false [] (splitComps (c :: t)) = splitComps (c :: t) := by
    rw [cleanLoop_simple false (splitComps (c :: t)) h []]
    exact List.nil_append _
  unfold filepathClean
  simp [data_mk, hclean, splitComps_ne_nil (c :: t), intercalateSlash_splitComps, hc]

theorem clean_of_simple (s : String) (h : simplePathStr s = true) :
    filepathClean s = s := by
  rcases hds : s.data with _ | ⟨c, t⟩
  · exact absurd hds (simplePathStr_data_ne_nil h)
  · unfold simplePathStr at h
    rw [hds] at h
    by_cases hc : c = '/'
    · subst hc
      simp only [List.head?_cons, List.tail_cons, Option.some.injEq, if_true,
        eq_self_iff_true, simpleCompsOk, List.all_eq_true, ite_true] at h
      calc filepathClean s = filepathClean (String.mk ('/' :: t)) := by
            rw [← hds, mk_data_eq]
        _ = String.mk ('/' :: t) := clean_mk_rooted t h
        _ = s := by rw [← hds, mk_data_eq]
    · rw [if_neg (by simp [hc])] at h
      simp only [simpleCompsOk, List.all_eq_true] at h
      calc filepathClean s = filepathClean (String.mk (c :: t)) := by
            rw [← hds, mk_data_eq]
        _ = String.mk (c :: t) := clean_mk_nonrooted c t hc h
        _ = s := by rw [← hds, mk_data_eq]

theorem clean_mk_rooted_trailing (t : List Char)
    (h : ∀ d ∈ splitComps t, simpleComp d = true) :
    filepathClean (String.mk ('/' :: (t ++ ['/']))) = String.mk ('/' :: t) := by
  have hsplit : splitComps (t ++ ['/']) = splitComps t ++ [[]] := by
    have := splitComps_append_slash t []
    simpa [splitComps] using this
  have hclean : cleanLoop true [] (splitComps (t ++ ['/'])) = splitComps t := by
    rw [hsplit, cleanLoop_simple_trailing true (splitComps t) h []]
    exact List.nil_append _
  unfold filepathClean
  simp [data_mk, hclean, splitComps_ne_nil t, intercalateSlash_splitComps]

theorem clean_mk_nonrooted_trailing (c : Char) (t : List Char) (hc : ¬ c = '/')
    (h : ∀ d ∈ splitComps (c :: t), simpleComp d = true) :
    filepathClean (String.mk (c :: (t ++ ['/']))) = String.mk (c :: t) := by
  have hsplit : splitComps ((c :: t) ++ ['/']) = splitComps (c :: t) ++ [[]] := by
    have := splitComps_append_slash (c :: t) []
    simpa [splitComps] using this
  have hsplit' : splitComps (c :: (t ++ ['/'])) = splitComps (c :: t) ++ [[]] := by
    rw [← hsplit]
    rfl
  have hclean : cleanLoop false [] (splitComps (c :: (t ++ ['/']))) = splitComps (c :: t) := by
    rw [hsplit', cleanLoop_simple_trailing false (splitComps (c :: t)) h []]
    exact List.nil_append _
  unfold filepathClean
  simp [data_mk, hclean, splitComps_ne_nil (c :: t), intercalateSlash_splitComps, hc]

theorem clean_trailing_slash (s : String) (h : simplePathStr s = true) :
    filepathClean (s ++ "/") = s := by
  have hdata : (s ++ "/").data = s.data ++ ['/'] := by
    rw [String.data_append]
  rcases hds : s.data with _ | ⟨c, t⟩
  · exact absurd hds (simplePathStr_data_ne_nil h)
  · unfold simplePathStr at h
    rw [hds] at h
    have harg : s ++ "/" = String.mk (c :: (t ++ ['/'])) := by
      apply data_injective
      rw [hdata, hds, data_mk]
      simp
    by_cases hc : c = '/'
    · subst hc
      simp only [List.head?_cons, List.tail_cons, Option.some.injEq, if_true,
        eq_self_iff_true, simpleCompsOk, List.all_eq_true, ite_true] at h
      rw [harg, clean_mk_rooted_trailing t h, ← hds, mk_data_eq]
    · rw [if_neg (by simp [hc])] at h
      simp only [simpleCompsOk, List.all_eq_true] at h
      rw [harg, clean_mk_nonrooted_trailing c t hc h, ← hds, mk_data_eq]

theorem simpleSeg_simpleComp {b : String} (h : simpleSeg b = true) :
    simpleComp b.data = true := by
  simp only [simpleSeg, Bool.and_eq_true] at h
  exact h.1

theorem simpleSeg_noslash {b : String} (h : simpleSeg b = true) :
    b.data.all (fun ch => ch != '/') = true := by
  simp only [simpleSeg, Bool.and_eq_true] at h
  exact h.2

theorem simpleSeg_ne_empty {b : String} (h : simpleSeg b = true) :
    b ≠ "" := by
  intro he
  subst he
  simp [simpleSeg, simpleComp] at h

theorem simpleCompsOk_seg {b : String} (h : simpleSeg b = true) :
    simpleCompsOk b.data = true := by
  unfold simpleCompsOk
  rw [splitComps_of_noslash b.data (simpleSeg_noslash h)]
  simp [simpleSeg_simpleComp h]

theorem simpleCompsOk_append_slash (xs ys : List Char) :
    simpleCompsOk (xs ++ '/' :: ys) = (simpleCompsOk xs && simpleCompsOk ys) := by
  unfold simpleCompsOk
  rw [splitComps_append_slash, List.all_append]

theorem data_append_slash (a b : String) :
    (a ++ "/" ++ b).data = a.data ++ '/' :: b.data := by
  rw [String.data_append, String.data_append]
  simp

theorem simplePath_append_seg {a b : String} (ha : simplePathStr a = true)
    (hb : simpleSeg b = true) : simplePathStr (a ++ "/" ++ b) = true := by
  unfold simplePathStr at ha ⊢
  rw [data_append_slash]
  rcases hds : a.data with _ | ⟨c, t⟩
  · rw [hds] at ha
    simp [simpleCompsOk, splitComps, simpleComp] at ha
  · rw [hds] at ha
    by_cases hc : c = '/'
    · subst hc
      simp only [List.head?_cons, List.tail_cons, Option.some.injEq, if_true,
        eq_self_iff_true, ite_true] at ha
      simp only [List.cons_append, List.head?_cons, List.tail_cons,
        Option.some.injEq, if_true, eq_self_iff_true, ite_true]
      rw [simpleCompsOk_append_slash]
      simp [ha, simpleCompsOk_seg hb]
    · rw [if_neg (by simp [hc])] at ha
      simp only [List.cons_append, List.head?_cons]
      rw [if_neg (by simp [hc])]
      rw [show c :: (t ++ '/' :: b.data) = (c :: t) ++ '/' :: b.data from rfl]
      rw [simpleCompsOk_append_slash]
      simp [ha, simpleCompsOk_seg hb]

theorem join2_of_simple (a b : String) (ha : simplePathStr a = true)
    (hb : simpleSeg b = true) : filepathJoin [a, b] = a ++ "/" ++ b := by
  have hane : ¬ a = "" := simplePathStr_ne_empty ha
  have hkey : a ++ "/" ++ b = String.mk (a.data ++ '/' :: b.data) := by
    apply data_injective
    rw [data_append_slash, data_mk]
  unfold filepathJoin
  simp only [List.dropWhile_cons, decide_eq_true_eq, if_neg hane]
  rw [show intercalateSlash ([a, b].map String.data) = a.data ++ '/' :: b.data from rfl]
  rw [← hkey]
  exact clean_of_simple _ (simplePath_append_seg ha hb)

theorem join3_of_simple (a b c : String) (ha : simplePathStr a = true)
    (hb : simpleSeg b = true) (hc : simpleSeg c = true) :
    filepathJoin [a, b, c] = a ++ "/" ++ b ++ "/" ++ c := by
  have hane : ¬ a = "" := simplePathStr_ne_empty ha
  have hkey : a ++ "/" ++ b ++ "/" ++ c
      = String.mk (a.data ++ '/' :: (b.data ++ '/' :: c.data)) := by
    apply data_injective
    simp [String.data_append, data_mk]
  unfold filepathJoin
  simp only [List.dropWhile_cons, decide_eq_true_eq, if_neg hane]
  rw [show intercalateSlash ([a, b, c].map String.data)
        = a.data ++ '/' :: (b.data ++ '/' :: c.data) from rfl]
  rw [← hkey]
  exact clean_of_simple _
    (simplePath_append_seg (simplePath_append_seg ha hb) hc)

theorem join_empty_of_simple (a : String) (ha : simplePathStr a = true) :
    filepathJoin [a, ""] = a := by
  have hane : ¬ a = "" := simplePathStr_ne_empty ha
  have hkey : a ++ "/" = String.mk (a.data ++ ['/']) := by
    apply data_injective
    rw [String.data_append, data_mk]
  unfold filepathJoin
  simp only [List.dropWhile_cons, decide_eq_true_eq, if_neg hane]
  rw [show intercalateSlash ([a, ""].map String.data) = a.data ++ ['/'] from by
    simp [intercalateSlash]]
  rw [← hkey]
  exact clean_trailing_slash a ha

theorem simpleSeg_append_db (n : String) (h : simpleSeg n = true) :
    simpleSeg (n ++ ".db") = true := by
  unfold simpleSeg at h ⊢
  simp only [Bool.and_eq_true] at h ⊢
  obtain ⟨h1, h2⟩ := h
  constructor
  · simp only [simpleComp, decide_eq_true_eq] at h1 ⊢
    push_neg at h1 ⊢
    have hlen : 4 ≤ (n ++ ".db").data.length := by
      rw [String.data_append, List.length_append]
      have hn1 : 1 ≤ n.data.length := by
        cases hd : n.data
        · exact absurd hd h1.1
        · simp
      have hd3 : ((".db" : String).data).length = 3 := by decide
      omega
    refine ⟨?_, ?_, ?_⟩ <;> intro hx <;> rw [hx] at hlen <;> simp at hlen
  · rw [String.data_append, List.all_append]
    simp only [Bool.and_eq_true]
    exact ⟨h2, by decide⟩

/-! The claims. -/

/-- Claim C1: the claim says that with `deleteOnShutdown=true`,
`deleteEntireDirectory=false`, `inMemory=false`, Shutdown removes exactly
the database file at the resolved full path recorded during
initialization.  The code instead records `savedPath = fileName` — the
bare file name, not the joined path — so Shutdown calls
`os.RemoveAll("app.db")`, a path relative to the process working
directory, while the database was opened at
`/home/u/.config/app/app.db`.  This theorem runs the code at that
concrete input and exhibits the divergence. -/
theorem claim_C1_shutdown_deletes_wrong_path :
    (Init envLinux cfgApp).err = none ∧
    (Init envLinux cfgApp).cfg.DB = some ⟨"/home/u/.config/app/app.db", 2, 1⟩ ∧
    (Init envLinux cfgApp).cfg.savedPath = "app.db" ∧
    (Shutdown envLinux (Init envLinux cfgApp).cfg).trace = [Effect.removeAll "app.db"] ∧
    ("app.db" : String) ≠ "/home/u/.config/app/app.db" := by
  decide

/-- Claim C2: the claim says that with `deleteEntireDirectory=true` Shutdown
removes the entire parent directory of the resolved database file.  Since
`savedPath` holds only the bare file name, `filepath.Dir(savedPath)` is
`"."` — the process working directory — not the parent directory
`/home/u/.config/app` of the database file.  This theorem runs the code at
that concrete input and exhibits the divergence. -/
theorem claim_C2_shutdown_deletes_cwd :
    (Init envLinux cfgAppDelDir).err = none ∧
    (Init envLinux cfgAppDelDir).cfg.DB = some ⟨"/home/u/.config/app/app.db", 2, 1⟩ ∧
    (Shutdown envLinux (Init envLinux cfgAppDelDir).cfg).trace = [Effect.removeAll "."] ∧
    ("." : String) ≠ "/home/u/.config/app" := by
  decide

/-- Counterexample to claim C3: the claim says that on any Initialize error the
recorded path is left exactly as before the call.  With a failing
`sql.Open` on a file-backed configuration, Init returns an error but has
already overwritten `savedPath` with the composed file name. -/
theorem claim_C3_counterexample :
    (Init envLinuxOpenFail cfgApp).err = some GoErr.connErr ∧
    cfgApp.savedPath = "" ∧
    (Init envLinuxOpenFail cfgApp).cfg.savedPath = "app.db" ∧
    ¬ (Init envLinuxOpenFail cfgApp).cfg.savedPath = cfgApp.savedPath := by
  decide

/-- Claim C3, amended: on every Initialize error the stored connection handle
is unchanged; the whole configuration is unchanged for errors before the
file open (missing name, unsupported platform, in-memory open failure,
directory-creation failure), but on file open or ping failure the
recorded path has already been set to the composed file name. -/
theorem claim_C3_error_leaves_handle_unchanged (env : Env) (c : Config) (e : GoErr)
    (h : (Init env c).err = some e) :
    (Init env c).cfg.DB = c.DB ∧
    ((Init env c).cfg = c ∨
      ((e = GoErr.connErr ∨ e = GoErr.pingErr) ∧
        (Init env c).cfg = { c with savedPath := fileNameOf c })) := by
  by_cases hm : c.InMemory
  · by_cases ho : env.openOk ":memory:"
    · simp [Init, createMemDB, hm, ho] at h
    · simp [Init, createMemDB, hm, ho] at h ⊢
  · by_cases hn : c.DbName = ""
    · simp [Init, hm, hn] at h ⊢
    · rcases hr : resolveDir env c with _ | dir
      · simp [Init, createFileDB, hm, hn, hr] at h ⊢
      · by_cases hmk : env.mkdirOk dir
        · by_cases hop : env.openOk (filepathJoin [dir, fileNameOf c])
          · by_cases hpg : env.pingOk (filepathJoin [dir, fileNameOf c])
            · simp [Init, createFileDB, hm, hn, hr, hmk, hop, hpg] at h
            · simp [Init, createFileDB, hm, hn, hr, hmk, hop, hpg] at h ⊢
              simp [h]
          · simp [Init, createFileDB, hm, hn, hr, hmk, hop] at h ⊢
            simp [h]
        · simp [Init, createFileDB, hm, hn, hr, hmk] at h ⊢

theorem claim_C3_error_leaves_handle_unchanged_witness :
    (Init envLinuxOpenFail cfgApp).err = some GoErr.connErr ∧
    ((Init envLinuxOpenFail cfgApp).cfg.DB = cfgApp.DB ∧
      ((Init envLinuxOpenFail cfgApp).cfg = cfgApp ∨
        ((GoErr.connErr = GoErr.connErr ∨ GoErr.connErr = GoErr.pingErr) ∧
          (Init envLinuxOpenFail cfgApp).cfg
            = { cfgApp with savedPath := fileNameOf cfgApp }))) :=
  ⟨by decide,
   claim_C3_error_leaves_handle_unchanged envLinuxOpenFail cfgApp GoErr.connErr (by decide)⟩

/-- Claim C4: with an empty name and `inMemory=false`, Initialize fails with the
configuration error, makes no filesystem or connection call (the trace is
empty), and leaves the configuration unchanged. -/
theorem claim_C4_empty_name_rejected (env : Env) (c : Config)
    (hn : c.DbName = "") (hm : c.InMemory = false) :
    Init env c = ⟨some GoErr.configErr, c, []⟩ := by
  simp [Init, hn, hm]

theorem claim_C4_empty_name_rejected_witness :
    cfgNoName.DbName = "" ∧ cfgNoName.InMemory = false ∧
    Init envLinux cfgNoName = ⟨some GoErr.configErr, cfgNoName, []⟩ :=
  ⟨rfl, rfl, claim_C4_empty_name_rejected envLinux cfgNoName rfl rfl⟩

/-- Claim C5: with `inMemory=true` Initialize performs exactly one external
call, `sql.Open("sqlite3", ":memory:")` — no directory creation or other
filesystem work — stores the handle on success, fails with the in-memory
connection error exactly when the open fails, and its error, trace and
stored handle do not depend on the platform or any directory override
field. -/
theorem claim_C5_in_memory (env : Env) (c : Config) (g m w l : String)
    (hm : c.InMemory = true) :
    Init env c
      = ⟨if env.openOk ":memory:" then none else some GoErr.memConnErr,
         if env.openOk ":memory:" then { c with DB := some ⟨":memory:", 2, 0⟩ } else c,
         [Effect.sqlOpen "sqlite3" ":memory:"]⟩ ∧
    (Init { env with goos := g }
        { c with MacDir := m, WindowsDir := w, LinuxDir := l }).err = (Init env c).err ∧
    (Init { env with goos := g }
        { c with MacDir := m, WindowsDir := w, LinuxDir := l }).trace = (Init env c).trace ∧
    (Init { env with goos := g }
        { c with MacDir := m, WindowsDir := w, LinuxDir := l }).cfg.DB
      = (Init env c).cfg.DB := by
  by_cases ho : env.openOk ":memory:"
  · simp [Init, createMemDB, hm, ho]
  · simp [Init, createMemDB, hm, ho]

theorem claim_C5_in_memory_witness :
    cfgMem.InMemory = true ∧
    (Init envLinux cfgMem
      = ⟨if envLinux.openOk ":memory:" then none else some GoErr.memConnErr,
         if envLinux.openOk ":memory:" then { cfgMem with DB := some ⟨":memory:", 2, 0⟩ }
         else cfgMem,
         [Effect.sqlOpen "sqlite3" ":memory:"]⟩ ∧
    (Init { envLinux with goos := "plan9" }
        { cfgMem with MacDir := "/x", WindowsDir := "/y", LinuxDir := "/z" }).err
      = (Init envLinux cfgMem).err ∧
    (Init { envLinux with goos := "plan9" }
        { cfgMem with MacDir := "/x", WindowsDir := "/y", LinuxDir := "/z" }).trace
      = (Init envLinux cfgMem).trace ∧
    (Init { envLinux with goos := "plan9" }
        { cfgMem with MacDir := "/x", WindowsDir := "/y", LinuxDir := "/z" }).cfg.DB
      = (Init envLinux cfgMem).cfg.DB) :=
  ⟨rfl, claim_C5_in_memory envLinux cfgMem "plan9" "/x" "/y" "/z" rfl⟩

/-- Claim C6: on linux with no override, a well-formed non-empty name and a
well-formed `HOME`, Initialize creates the directory
`${HOME}/.config/{name}` and opens the database at that directory joined
with the file name `{name}.db`. -/
theorem claim_C6_linux_default_path (env : Env) (c : Config)
    (hg : env.goos = "linux") (hm : c.InMemory = false) (hl : c.LinuxDir = "")
    (hcs : c.CacheShared = false)
    (hname : simpleSeg c.DbName = true)
    (hhome : simplePathStr (env.getenv "HOME") = true)
    (hmk : env.mkdirOk (env.getenv "HOME" ++ "/.config/" ++ c.DbName) = true) :
    (Init env c).trace.take 2
      = [Effect.mkdirAll (env.getenv "HOME" ++ "/.config/" ++ c.DbName),
         Effect.sqlOpen "sqlite3"
           (env.getenv "HOME" ++ "/.config/" ++ c.DbName ++ "/" ++ (c.DbName ++ ".db"))] := by
  have hbridge : env.getenv "HOME" ++ "/.config/" ++ c.DbName
      = env.getenv "HOME" ++ "/" ++ ".config" ++ "/" ++ c.DbName := by
    apply data_injective
    simp [String.data_append, List.append_assoc]
  have hdirsimple :
      simplePathStr (env.getenv "HOME" ++ "/" ++ ".config" ++ "/" ++ c.DbName) = true :=
    simplePath_append_seg (simplePath_append_seg hhome (by decide)) hname
  have hdir0 : resolveDir env c
      = some (env.getenv "HOME" ++ "/" ++ ".config" ++ "/" ++ c.DbName) := by
    unfold resolveDir
    rw [hg]
    rw [if_neg (by decide), if_neg (by decide), if_pos rfl, hl]
    rw [if_neg (by simp)]
    rw [join3_of_simple _ _ _ hhome (by decide) hname]
  have hfn : fileNameOf c = c.DbName ++ ".db" := by
    simp [fileNameOf, hcs]
  have hdn : ¬ c.DbName = "" := simpleSeg_ne_empty hname
  have hjoin2 : filepathJoin [env.getenv "HOME" ++ "/" ++ ".config" ++ "/" ++ c.DbName,
      c.DbName ++ ".db"]
      = env.getenv "HOME" ++ "/" ++ ".config" ++ "/" ++ c.DbName ++ "/" ++ (c.DbName ++ ".db") :=
    join2_of_simple _ _ hdirsimple (simpleSeg_append_db _ hname)
  rw [hbridge] at hmk ⊢
  simp [Init, createFileDB, hm, hdn, hdir0, hmk, hfn, hjoin2]
  by_cases hop : env.openOk
      (env.getenv "HOME" ++ "/" ++ ".config" ++ "/" ++ c.DbName ++ "/" ++ (c.DbName ++ ".db"))
  · by_cases hpg : env.pingOk
        (env.getenv "HOME" ++ "/" ++ ".config" ++ "/" ++ c.DbName ++ "/" ++ (c.DbName ++ ".db"))
    · simp [hop, hpg]
    · simp [hop, hpg]
  · simp [hop]

theorem claim_C6_linux_default_path_witness :
    simpleSeg cfgApp.DbName = true ∧
    simplePathStr (envLinux.getenv "HOME") = true ∧
    (Init envLinux cfgApp).trace.take 2
      = [Effect.mkdirAll (envLinux.getenv "HOME" ++ "/.config/" ++ cfgApp.DbName),
         Effect.sqlOpen "sqlite3"
           (envLinux.getenv "HOME" ++ "/.config/" ++ cfgApp.DbName ++ "/"
             ++ (cfgApp.DbName ++ ".db"))] :=
  ⟨by decide, by decide,
   claim_C6_linux_default_path envLinux cfgApp rfl rfl rfl rfl (by decide) (by decide) rfl⟩

/-- Claim C7: on windows a non-empty override directory is used verbatim; with
an empty override the code joins the roaming app-data value with the
empty override string, which (for any well-formed app-data value) is the
roaming app-data directory itself — no per-name subdirectory is ever
added. -/
theorem claim_C7_windows_dir (env : Env) (c : Config)
    (hg : env.goos = "windows")
    (happ : simplePathStr (env.getenv "APPDATA") = true) :
    resolveDir env c
      = some (if c.WindowsDir = "" then env.getenv "APPDATA" else c.WindowsDir) := by
  unfold resolveDir
  rw [hg, if_pos rfl]
  by_cases hw : c.WindowsDir = ""
  · rw [if_neg (by simp [hw]), if_pos hw, hw]
    rw [join_empty_of_simple _ happ]
  · rw [if_pos hw, if_neg hw]

theorem claim_C7_windows_dir_witness :
    envWin.goos = "windows" ∧
    simplePathStr (envWin.getenv "APPDATA") = true ∧
    resolveDir envWin cfgApp
      = some (if cfgApp.WindowsDir = "" then envWin.getenv "APPDATA" else cfgApp.WindowsDir) :=
  ⟨rfl, by decide, claim_C7_windows_dir envWin cfgApp rfl (by decide)⟩

/-- Claim C8: on any file-backed initialization that reaches the open step, the
effective idle bound is 2 when `MaxIdleConnections` is zero and the
configured value otherwise, the effective open bound is 1 when
`MaxOpenConnections` is zero and the configured value otherwise; both are
applied to the connection before the ping, and on full success the stored
handle carries exactly these bounds. -/
theorem claim_C8_pool_bounds (env : Env) (c : Config) (dir : String)
    (hm : c.InMemory = false) (hn : ¬ c.DbName = "")
    (hr : resolveDir env c = some dir)
    (hmk : env.mkdirOk dir = true)
    (hop : env.openOk (filepathJoin [dir, fileNameOf c]) = true) :
    (Init env c).trace.take 5
      = [Effect.mkdirAll dir,
         Effect.sqlOpen "sqlite3" (filepathJoin [dir, fileNameOf c]),
         Effect.setMaxIdle (if c.MaxIdleConnections = 0 then 2 else c.MaxIdleConnections),
         Effect.setMaxOpen (if c.MaxOpenConnections = 0 then 1 else c.MaxOpenConnections),
         Effect.ping (filepathJoin [dir, fileNameOf c])] ∧
    (Init env c).cfg.DB
      = (if env.pingOk (filepathJoin [dir, fileNameOf c])
         then some ⟨filepathJoin [dir, fileNameOf c],
                    if c.MaxIdleConnections = 0 then 2 else c.MaxIdleConnections,
                    if c.MaxOpenConnections = 0 then 1 else c.MaxOpenConnections⟩
         else c.DB) := by
  by_cases hpg : env.pingOk (filepathJoin [dir, fileNameOf c])
  · simp [Init, createFileDB, hm, hn, hr, hmk, hop, hpg]
  · simp [Init, createFileDB, hm, hn, hr, hmk, hop, hpg]

theorem claim_C8_pool_bounds_witness :
    resolveDir envLinux cfgApp = some "/home/u/.config/app" ∧
    ((Init envLinux cfgApp).trace.take 5
      = [Effect.mkdirAll "/home/u/.config/app",
         Effect.sqlOpen "sqlite3" (filepathJoin ["/home/u/.config/app", fileNameOf cfgApp]),
         Effect.setMaxIdle
           (if cfgApp.MaxIdleConnections = 0 then 2 else cfgApp.MaxIdleConnections),
         Effect.setMaxOpen
           (if cfgApp.MaxOpenConnections = 0 then 1 else cfgApp.MaxOpenConnections),
         Effect.ping (filepathJoin ["/home/u/.config/app", fileNameOf cfgApp])] ∧
    (Init envLinux cfgApp).cfg.DB
      = (if envLinux.pingOk (filepathJoin ["/home/u/.config/app", fileNameOf cfgApp])
         then some ⟨filepathJoin ["/home/u/.config/app", fileNameOf cfgApp],
                    if cfgApp.MaxIdleConnections = 0 then 2 else cfgApp.MaxIdleConnections,
                    if cfgApp.MaxOpenConnections = 0 then 1 else cfgApp.MaxOpenConnections⟩
         else cfgApp.DB)) :=
  ⟨by decide,
   claim_C8_pool_bounds envLinux cfgApp "/home/u/.config/app"
     rfl (by decide) (by decide) rfl rfl⟩

/-- Claim C9: on any file-backed initialization that reaches the open step, the
file name the connection is opened on (and the one recorded in
`savedPath`) is `{name}.db` with `"?cache=shared"` appended exactly once
when `CacheShared` is set and never otherwise. -/
theorem claim_C9_shared_cache_suffix (env : Env) (c : Config) (dir : String)
    (hm : c.InMemory = false) (hn : ¬ c.DbName = "")
    (hr : resolveDir env c = some dir) (hmk : env.mkdirOk dir = true) :
    (Init env c).trace.take 2
      = [Effect.mkdirAll dir,
         Effect.sqlOpen "sqlite3"
           (filepathJoin [dir, c.DbName ++ ".db"
              ++ (if c.CacheShared then "?cache=shared" else "")])] ∧
    (Init env c).cfg.savedPath
      = c.DbName ++ ".db" ++ (if c.CacheShared then "?cache=shared" else "") := by
  have hfn : fileNameOf c
      = c.DbName ++ ".db" ++ (if c.CacheShared then "?cache=shared" else "") := by
    unfold fileNameOf
    by_cases hcs : c.CacheShared
    · simp [hcs]
    · simp [hcs]
  rw [← hfn]
  by_cases hop : env.openOk (filepathJoin [dir, fileNameOf c])
  · by_cases hpg : env.pingOk (filepathJoin [dir, fileNameOf c])
    · simp [Init, createFileDB, hm, hn, hr, hmk, hop, hpg]
    · simp [Init, createFileDB, hm, hn, hr, hmk, hop, hpg]
  · simp [Init, createFileDB, hm, hn, hr, hmk, hop]

theorem claim_C9_shared_cache_suffix_witness :
    resolveDir envLinux cfgShared = some "/home/u/.config/app" ∧
    ((Init envLinux cfgShared).trace.take 2
      = [Effect.mkdirAll "/home/u/.config/app",
         Effect.sqlOpen "sqlite3"
           (filepathJoin ["/home/u/.config/app", cfgShared.DbName ++ ".db"
              ++ (if cfgShared.CacheShared then "?cache=shared" else "")])] ∧
    (Init envLinux cfgShared).cfg.savedPath
      = cfgShared.DbName ++ ".db"
        ++ (if cfgShared.CacheShared then "?cache=shared" else "")) :=
  ⟨by decide,
   claim_C9_shared_cache_suffix envLinux cfgShared "/home/u/.config/app"
     rfl (by decide) (by decide) rfl⟩

/-- Claim C10: `GetDB` never returns an error: for every configuration state —
including the fresh state where the stored handle is `none` — it returns
the stored handle together with a nil error. -/
theorem claim_C10_getdb_never_errors (c : Config) :
    (GetDB c).2 = none ∧ (GetDB c).1 = c.DB :=
  ⟨rfl, rfl⟩

end WailsSqlite
